import Mathlib

/-!
Verification of the housekeeper media classification and duplicate-resolution
core against its natural-language specification.

The definitions below are a shallow embedding of the Python source:

* `lib/classifier.py` — the `Classifier` pipeline (`rank_file`,
  `set_info_from_title`, `extract_info`, `cleanup_title`, `find_media`,
  `set_media_dir`, `set_new_dir`, `classify`, `tmdb`);
* `cleaner.py` — `Cleaner.collect_media_info` (grouping key) and
  `Cleaner.delete_low_quality` (the keep / demote / delete policy);
* `lib/utils.py` — the guard phase of `Utils.move` and the application lock;
* `cli.py` — the startup locking of the command-line entry point.

External collaborators (the PTN filename parser, the on-disk cache, the TMDB
catalog, `pathvalidate.sanitize_filepath`, the filesystem and the OS lock) are
modelled as inputs: their outputs are parameters of the embedded functions.
Python dictionaries with mixed-type values (`info["year"]`, `info["season"]`,
`info["episode"]` hold `None`, `int` or `str` depending on the code path that
set them) are modelled by the `PyV` type, which carries Python's truthiness and
f-string rendering.  Strings are modelled as their character lists; the regex
patterns of the source are implemented as explicit first-match scanners with
the backtracking semantics of Python's `re` (leftmost match, lazy/greedy
quantifiers as written).  Titles and filenames are assumed newline-free (the
`.`-does-not-match-newline subtlety of `re` is immaterial for them).
-/

/-! ## Character classes and basic list scanners -/

/-- Membership in the regex class `[a-z]` under `re.IGNORECASE`: an ASCII
letter of either case.  (Python's `re` on `str` is unicode-aware; the model is
ASCII, which covers the release-name alphabet the tool operates on.) -/
def isLetterAZ (c : Char) : Bool :=
  ('a' ≤ c && c ≤ 'z') || ('A' ≤ c && c ≤ 'Z')

/-- Membership in the regex class `[a-z0-9]` under `re.IGNORECASE`. -/
def isAlnumAZ (c : Char) : Bool :=
  isLetterAZ c || c.isDigit

/-- Lowercasing of a single character, as `str.lower` acts on ASCII. -/
def lowerChar (c : Char) : Char :=
  if 'A' ≤ c && c ≤ 'Z' then Char.ofNat (c.toNat + 32) else c

/-- Lowercasing of a string, as Python's `str.lower` (ASCII model). -/
def lowerStr (s : String) : String :=
  String.mk (s.data.map lowerChar)

/-- Whitespace stripped by Python's `str.strip()` (ASCII part). -/
def isPyWS (c : Char) : Bool :=
  c = ' ' || c = '\t' || c = '\n' || c = '\r' || c = '\x0b' || c = '\x0c'

/-- Model of Python's `str.strip()`: drop leading and trailing whitespace. -/
def stripChars (l : List Char) : List Char :=
  ((l.dropWhile isPyWS).reverse.dropWhile isPyWS).reverse

/-- Maximal run of decimal digits at the head of a list (the greedy `\d+`),
together with the remainder. -/
def digitsRun : List Char → List Char × List Char
  | [] => ([], [])
  | c :: rest =>
    if c.isDigit then
      let (d, r) := digitsRun rest
      (c :: d, r)
    else ([], c :: rest)

/-- Numeric value of a digit string, as Python's `int` on `\d+` captures. -/
def digitsToNat (l : List Char) : Nat :=
  l.foldl (fun acc c => acc * 10 + (c.toNat - '0'.toNat)) 0

/-- Match of `\d{4}` at the head of a list: the first four characters, when
they are all digits. -/
def fourDigits : List Char → Option (List Char)
  | a :: b :: c :: d :: _ =>
    if a.isDigit && b.isDigit && c.isDigit && d.isDigit then some [a, b, c, d] else none
  | _ => none

/-- Case-insensitive match of a fixed (lowercase) word at the head of a list,
returning the remainder on success. -/
def wordCI : List Char → List Char → Option (List Char)
  | [], l => some l
  | _, [] => none
  | a :: ws, b :: ls => if lowerChar b = a then wordCI ws ls else none

/-- Existence of a match of `[^a-z]w[^a-z]` (case-insensitive) anywhere in the
list: one non-letter, the word `w`, one non-letter.  This is exactly when the
source patterns of the shape `.*[^a-z]+w[^a-z]+.*` match (the `.*` and the
extra `+` repetitions collapse into the single mandatory characters on each
side). -/
def surroundScan (w : List Char) : List Char → Bool
  | [] => false
  | c :: rest =>
    (!isLetterAZ c &&
      (match wordCI w rest with
       | some (r0 :: _) => !isLetterAZ r0
       | some [] => false
       | none => false)) ||
    surroundScan w rest

/-- Match of `hdr_regex = .*[^a-z]+hdr[^a-z]+.*` (IGNORECASE). -/
def hdrRe (s : String) : Bool := surroundScan "hdr".data s.data

/-- Match of `dubbed_regex = .*[^a-z](dubbed|dual|multi)[^a-z]+.*`
(IGNORECASE). -/
def dubbedRe (s : String) : Bool :=
  surroundScan "dubbed".data s.data || surroundScan "dual".data s.data ||
    surroundScan "multi".data s.data

/-- Match of `threed_regex = .*[^a-z]3d[^a-z]+.*` (IGNORECASE). -/
def threedRe (s : String) : Bool := surroundScan "3d".data s.data

/-- Match of `remux_regex = .*[^a-z]+remux[^a-z]+.*` (IGNORECASE). -/
def remuxRe (s : String) : Bool := surroundScan "remux".data s.data

/-- Match of `cd_regex = .*[^a-z]+cd\d+[^\d]+.*` (IGNORECASE): a non-letter,
`cd`, at least one digit, and at least one further character (the character
after the greedy digit run is necessarily a non-digit). -/
def cdScan : List Char → Bool
  | [] => false
  | c :: rest =>
    (!isLetterAZ c &&
      (match wordCI "cd".data rest with
       | some r =>
         let (ds, r2) := digitsRun r
         !ds.isEmpty && !r2.isEmpty
       | none => false)) ||
    cdScan rest

/-- Match of `cd_regex` on a string. -/
def cdRe (s : String) : Bool := cdScan s.data

/-- Match of `ufc_regex = ^ufc.*` (IGNORECASE): with `re.match` this is
exactly a case-insensitive `ufc` at the start of the string. -/
def ufcRe (s : String) : Bool :=
  List.isPrefixOf "ufc".data (s.data.map lowerChar)

/-! ## The fallback series regex of `extract_info`

`series_regex = ^.+?[^a-z0-9]+?S(\d+)E(\d+)?[^a-z0-9]+.*$` (IGNORECASE).
Python's engine returns the leftmost `S` position (at index at least 2, with a
non-alphanumeric character directly before it) at which `S`, a non-empty digit
run, `E`, an optional digit run and a further non-alphanumeric character
follow. -/

/-- Attempted match of `S(\d+)E(\d+)?[^a-z0-9]` at the head of the list,
returning the two digit captures. -/
def seriesAt : List Char → Option (List Char × Option (List Char))
  | c :: rest =>
    if c = 'S' || c = 's' then
      let (d1, r1) := digitsRun rest
      if d1.isEmpty then none
      else
        match r1 with
        | e :: r2 =>
          if e = 'E' || e = 'e' then
            let (d2, r3) := digitsRun r2
            match r3 with
            | c3 :: _ =>
              if !isAlnumAZ c3 then some (d1, if d2.isEmpty then none else some d2)
              else none
            | [] => none
          else none
        | [] => none
    else none
  | [] => none

/-- Scan for the first separator position followed by a `seriesAt` match. -/
def seriesScan : List Char → Option (List Char × Option (List Char))
  | [] => none
  | c :: rest =>
    if !isAlnumAZ c then
      match seriesAt rest with
      | some r => some r
      | none => seriesScan rest
    else seriesScan rest

/-- First match of `series_regex` in a list: the separator may start at index
1 at the earliest (the leading `.+?` consumes at least one character). -/
def seriesFind : List Char → Option (List Char × Option (List Char))
  | [] => none
  | _ :: rest => seriesScan rest

/-! ## The `S(\d+)E(\d+)` split of `cleanup_title`

`^(.*?)S(\d+)E(\d+)(.*)$` — case-sensitive, lazy leading group: the match is
at the leftmost `S` followed by digits, `E`, digits. -/

/-- Attempted match of `S(\d+)E(\d+)` at the head of the list, returning the
season, the episode and the remainder (group 4). -/
def seAt : List Char → Option (Nat × Nat × List Char)
  | 'S' :: rest =>
    let (d1, r1) := digitsRun rest
    if d1.isEmpty then none
    else
      match r1 with
      | 'E' :: r2 =>
        let (d2, r3) := digitsRun r2
        if d2.isEmpty then none else some (digitsToNat d1, digitsToNat d2, r3)
      | _ => none
  | _ => none

/-- First match of the `cleanup_title` split pattern: returns group 1 (the
characters before the leftmost match), the season, the episode and group 4. -/
def seScan : List Char → Option (List Char × Nat × Nat × List Char)
  | [] => none
  | c :: rest =>
    match seAt (c :: rest) with
    | some (s, e, g4) => some ([], s, e, g4)
    | none =>
      match seScan rest with
      | some (p, s, e, g4) => some (c :: p, s, e, g4)
      | none => none

/-! ## The year-strip pattern of `cleanup_title`

`^(.*?)[^a-z]+?(\d{4}).*$` (IGNORECASE): lazy leading group, then a non-empty
non-letter run, then four digits.  The engine finds the shortest group 1. -/

/-- Match of `[^a-z]+?(\d{4})` at the head of the list: the lazy separator
grows one non-letter at a time until four digits follow. -/
def sepYear : List Char → Option (List Char)
  | [] => none
  | c :: rest =>
    if isLetterAZ c then none
    else
      match fourDigits rest with
      | some y => some y
      | none => sepYear rest

/-- First match of the year-strip pattern: returns group 1 (characters before
the separator) and the four-digit capture. -/
def yearScan : List Char → Option (List Char × List Char)
  | [] => none
  | c :: rest =>
    match sepYear (c :: rest) with
    | some y => some ([], y)
    | none =>
      match yearScan rest with
      | some (p, y) => some (c :: p, y)
      | none => none

/-- Match of `extract_year`'s pattern `(\d{4})` under `re.match`: the first
four characters of the string, when they are all digits. -/
def first4Digits (s : String) : Option String :=
  (fourDigits s.data).map String.mk

/-! ## Python values, parser tokens, catalog records -/

/-- Value of a Python dictionary slot that holds `None`, an `int` or a `str`
depending on the code path that set it (the classifier's `year`, `season` and
`episode` slots are of this shape). -/
inductive PyV where
  | none : PyV
  | int : Int → PyV
  | str : String → PyV
deriving DecidableEq, Repr

/-- Python truthiness of a `PyV`: `None`, `0` and `""` are falsy. -/
def PyV.truthy : PyV → Bool
  | .none => false
  | .int n => n != 0
  | .str s => s != ""

/-- Python f-string rendering of a `PyV` (`None` prints as `"None"`). -/
def PyV.render : PyV → String
  | .none => "None"
  | .int n => toString n
  | .str s => s

/-- Result of `PTN.parse` as consumed by `set_info_from_title` via
`result.get(...)`: every field optional.  PTN is an external library, so its
output is an input of the model; `PTN.parse` raising is the all-empty
record. -/
structure PTNResult where
  title : Option String := none
  year : Option Int := none
  season : Option Int := none
  episode : Option Int := none
  resolution : Option String := none
  quality : Option String := none
  codec : Option String := none
  group : Option String := none
  excess : Option String := none
  container : Option String := none
  hdr : Bool := false
deriving DecidableEq, Repr

/-- Catalog record returned by the metadata resolver (`Classifier.tmdb` builds
one from a TMDB search hit; the year slot is an `int` from the release date or
the empty string `""` when absent). -/
structure MediaRec where
  title : Option String := none
  year : PyV := .none
  kind : Option String := none
  genres : List String := []
  languages : List String := []
deriving DecidableEq, Repr

/-- Classification record: the `Classifier.info` dictionary.  Sets of strings
(`genres`, `languages`) are modelled as lists with membership semantics. -/
structure Info where
  title : String
  year : PyV
  kind : String
  genres : List String
  media_dir : Option String
  new_dir : Option String
  old_path : String
  languages : List String
  hdr : Bool
  resolution : Option String
  quality : Option String
  episode : PyV
  season : PyV
  codec : Option String
  group : Option String
  excess : Option String
  container : Option String
  rank : Int
  dubbed : Bool
  threed : Bool
  cd : Bool
  ufc : Bool
  remux : Bool
  new_path : Option String
deriving DecidableEq, Repr

/-- Configuration, as validated by `config.media_dirs` (which raises unless
the `movies`, `series`, `documentaries` and `unsorted` directories are all
present): the four mandatory directories, the remaining `media_dirs` entries
(language buckets and the like), and `deleted_media_dir`. -/
structure Config where
  movies : String
  series : String
  documentaries : String
  unsorted : String
  extra : List (String × String)
  deletedMediaDir : String
deriving DecidableEq, Repr

/-- `config.media_dir(kind)`: the directory for a key of `media_dirs`, `None`
for unknown keys. -/
def Config.mediaDir (c : Config) (k : String) : Option String :=
  if k = "movies" then some c.movies
  else if k = "series" then some c.series
  else if k = "documentaries" then some c.documentaries
  else if k = "unsorted" then some c.unsorted
  else (c.extra.find? (fun p => p.1 = k)).map Prod.snd

/-- `config.media_dirs.values()`. -/
def Config.mediaDirsValues (c : Config) : List String :=
  [c.movies, c.series, c.documentaries, c.unsorted] ++ c.extra.map Prod.snd

/-! ## The quality ranker (`Classifier.rank_file`) -/

def HDR : Int := 100
def DUBBED : Int := 90
def THREED : Int := 80
def REMUX : Int := 50
def FOUR_K : Int := 40
def HD : Int := 30
def CD : Int := 10
def LOW_QUALITY : Int := -50

/-- `Classifier.rank_file`: the sequence of `rank += ...` statements of the
source, including the duplicated `240p` test of its final condition. -/
def rank_file (info : Info) : Int :=
  let rank : Int := 0
  let rank := if info.hdr then rank + HDR else rank
  let rank := if info.dubbed then rank + DUBBED else rank
  let rank := if info.threed then rank + THREED else rank
  let rank := if info.remux then rank + REMUX else rank
  let rank := if info.resolution = some "2160p" then rank + FOUR_K else rank
  let rank := if info.resolution = some "1080p" then rank + HD else rank
  let rank := if info.cd then rank + CD else rank
  let rank :=
    if info.resolution = some "720p" ∨ info.resolution = some "480p" ∨
        info.resolution = some "360p" ∨ info.resolution = some "240p" ∨
        info.resolution = some "144p" ∨ info.resolution = some "240p" then
      rank + LOW_QUALITY
    else rank
  rank

/-- Weight of a resolution value according to the specification's table
(§4.3): `2160p` +40, `1080p` +30, the sub-1080p buckets −50, anything else
contributes nothing. -/
def resWeightSpec (res : Option String) : Int :=
  if res = some "2160p" then FOUR_K
  else if res = some "1080p" then HD
  else if res = some "720p" ∨ res = some "480p" ∨ res = some "360p" ∨
      res = some "240p" ∨ res = some "144p" then LOW_QUALITY
  else 0

/-- Rank as the specification states it: the sum of the individual weights of
the independent signals (§4.3, additive table). -/
def rankSpecSum (info : Info) : Int :=
  (if info.hdr then HDR else 0) + (if info.dubbed then DUBBED else 0) +
    (if info.threed then THREED else 0) + (if info.remux then REMUX else 0) +
    resWeightSpec info.resolution + (if info.cd then CD else 0)

/-! ## Path helpers (`os.path`) -/

/-- Model of `os.path.basename`: the characters after the last `/`. -/
def basename (s : String) : String :=
  String.mk ((s.data.reverse.takeWhile (fun c => c ≠ '/')).reverse)

/-- Index of the last `.` in a list, when any. -/
def lastDot : List Char → Option Nat
  | [] => none
  | c :: rest =>
    match lastDot rest with
    | some i => some (i + 1)
    | none => if c = '.' then some 0 else none

/-- Model of `os.path.splitext` on a basename: split at the last dot, unless
every character before it is itself a dot (leading-dot names keep their
dots). -/
def splitext (l : List Char) : List Char × List Char :=
  match lastDot l with
  | none => (l, [])
  | some i => if (l.take i).any (fun c => c ≠ '.') then (l.take i, l.drop i) else (l, [])

/-- Model of `os.path.join a b` for the shapes the classifier produces. -/
def joinPath (a b : String) : String :=
  if b.data.head? = some '/' then b
  else if a = "" then b
  else if a.data.getLast? = some '/' then a ++ b
  else a ++ "/" ++ b

/-! ## `Utils.clean_path` -/

/-- Removal of `\[.*?\]` at the start (through the first `]`). -/
def dropThroughRBracket : List Char → Option (List Char)
  | [] => none
  | ']' :: r => some r
  | _ :: r => dropThroughRBracket r

/-- Maximal run of `[^\.]` characters (greedy), with the remainder. -/
def spanNonDot : List Char → List Char × List Char
  | [] => ([], [])
  | c :: rest =>
    if c = '.' then ([], c :: rest)
    else
      let (a, r) := spanNonDot rest
      (c :: a, r)

/-- The anchored substitution `re.sub(r"^(\[.*?\]|www\.[^\.]+\.[^\.]+)", "",
s, flags=re.IGNORECASE)`: strip one leading bracket tag or one leading
`www.X.Y` token. -/
def stripLeadTag (l : List Char) : List Char :=
  match l with
  | '[' :: rest =>
    (match dropThroughRBracket rest with
     | some r => r
     | none => l)
  | _ =>
    match wordCI "www.".data l with
    | some r =>
      let (a, r1) := spanNonDot r
      if a.isEmpty then l
      else
        match r1 with
        | '.' :: r2 =>
          let (b, r3) := spanNonDot r2
          if b.isEmpty then l else r3
        | _ => l
    | none => l

/-- `Utils.clean_path`: strip, remove a leading tag, delete every `:` and `\`,
then hand the result to `pathvalidate.sanitize_filepath` (an external library,
modelled as the function argument). -/
def clean_path (sanitize : String → String) (s : String) : String :=
  let l := stripChars s.data
  let l := stripLeadTag l
  let l := l.filter (fun c => c ≠ ':' && c ≠ '\\')
  sanitize (String.mk l)

/-! ## The classifier pipeline -/

/-- Initial `Classifier.info` dictionary built in `__init__`. -/
def initInfo (file_path filename_no_ext : String) : Info :=
  { title := filename_no_ext, year := .none, kind := "unsorted", genres := [],
    media_dir := none, new_dir := none, old_path := file_path,
    languages := ["english"], hdr := false, resolution := none, quality := none,
    episode := .none, season := .none, codec := none, group := none,
    excess := none, container := none, rank := 0, dubbed := false,
    threed := false, cd := false, ufc := false, remux := false,
    new_path := none }

/-- `Classifier.extract_year`: `re.match(r"(\d{4})", filename)` anchors at the
start, so the first four characters must be digits; the known resolutions
`1080` and `2160` are rejected. -/
def extract_year (filename : String) (info : Info) : Info :=
  match first4Digits filename with
  | some y => if y ≠ "1080" ∧ y ≠ "2160" then { info with year := .str y } else info
  | none => info

/-- `Classifier.set_info_from_title`: merge the PTN parse result into the
record (`result.get(...)` with Python truthiness for the guarded slots), fall
back to `extract_year`, then copy the remaining token slots unconditionally. -/
def set_info_from_title (ptn : PTNResult) (filename : String) (info : Info) : Info :=
  let info :=
    match ptn.year with
    | some y => if y ≠ 0 then { info with year := .int y } else info
    | none => info
  let info :=
    match ptn.title with
    | some t => if t ≠ "" then { info with title := t } else info
    | none => info
  let info :=
    match ptn.season with
    | some s => if s ≠ 0 then { info with kind := "series" } else info
    | none => info
  let info :=
    if info.year.truthy = false ∧ info.kind ≠ "series" then extract_year filename info
    else info
  { info with
    hdr := ptn.hdr
    resolution := ptn.resolution
    quality := ptn.quality
    episode := (match ptn.episode with | some e => .int e | none => .none)
    season := (match ptn.season with | some s => .int s | none => .none)
    codec := ptn.codec
    group := ptn.group
    excess := ptn.excess
    container := ptn.container }

/-- First part of `Classifier.extract_info` (lines 163–177): the boolean flag
regexes, the rank, and the fallback series regex. -/
def extract_info_flags (filename : String) (info : Info) : Info :=
  let info := if info.hdr = false then { info with hdr := hdrRe filename } else info
  let info := { info with dubbed := dubbedRe filename }
  let info := { info with threed := threedRe filename }
  let info := { info with cd := cdRe filename }
  let info := { info with ufc := ufcRe filename }
  let info := { info with remux := remuxRe filename }
  let info := { info with rank := rank_file info }
  if info.season.truthy = false ∨ info.episode.truthy = false then
    match seriesFind filename.data with
    | some (d1, d2) =>
      { info with
        kind := "series"
        season := .str (String.mk d1)
        episode := (match d2 with | some d => .str (String.mk d) | none => .none) }
    | none => info
  else info

/-- `Classifier.extract_info`: the flag and series stage, then the sport-event
(UFC) override of lines 179–183. -/
def extract_info (filename : String) (info : Info) : Info :=
  let info := extract_info_flags filename info
  if info.ufc then
    { info with kind := "series", season := .int 1, episode := .int 1, title := "UFC" }
  else info

/-- First stage of `Classifier.cleanup_title` (inside its title guard): the
`S(\d+)E(\d+)` split — group 1 becomes the title unless empty, in which case
group 4 does; season and episode become the captured integers — followed by
`str.strip()`. -/
def cleanupSE (info : Info) : Info :=
  let info :=
    match seScan info.title.data with
    | some (g1, s, e, g4) =>
      { info with
        title := String.mk (if g1.isEmpty then g4 else g1)
        season := .int s
        episode := .int e }
    | none => info
  { info with title := String.mk (stripChars info.title.data) }

/-- `Classifier.cleanup_title`: under the non-empty-title guard, the
season/episode split and strip, then the year-strip pattern, whose match
replaces the title by group 1 and the year by the captured four digits
(unconditionally). -/
def cleanup_title (info : Info) : Info :=
  if info.title = "" then info
  else
    let info := cleanupSE info
    match yearScan info.title.data with
    | some (p, y) => { info with title := String.mk p, year := .str (String.mk y) }
    | none => info

/-- Action of the season/episode split and strip stage of `cleanup_title` on
the title string alone. -/
def cleanupSET (s : String) : String :=
  match seScan s.data with
  | some (g1, _, _, g4) => String.mk (stripChars (if g1.isEmpty then g4 else g1))
  | none => String.mk (stripChars s.data)

/-- Action of `cleanup_title` on the title string alone (the computation of
the title output reads no other slot of the record). -/
def cleanupTitleOnly (s : String) : String :=
  if s = "" then s
  else
    match yearScan (cleanupSET s).data with
    | some (p, _) => String.mk p
    | none => cleanupSET s

/-- `Classifier.find_media`, with the cache and the external catalog as
inputs: an empty title is a logged error and no lookup; otherwise the query
key `"{title} {year}"` (or bare title) is tried against the cache first and
against the external provider on a miss.  Returns the hit, the number of
external provider calls, and the number of error-level log events.  (The
`cache.set` on a provider hit is a state effect outside the record and is not
modelled.) -/
def find_media (cache : String → Option MediaRec) (provider : String → Option MediaRec)
    (info : Info) : Option MediaRec × Nat × Nat :=
  if info.title = "" then (none, 0, 1)
  else
    let q := if info.year.truthy then info.title ++ " " ++ info.year.render else info.title
    match cache q with
    | some m => (some m, 0, 0)
    | none => (provider q, 1, 0)

/-- Union used for `genres |= set(g.lower() for g in ...)` and the analogous
languages update: sets are lists with membership semantics. -/
def unionLower (a b : List String) : List String :=
  a ++ (b.map lowerStr).filter (fun x => !a.contains x)

/-- Merge step of `Classifier.classify` (lines 215–227): where the catalog
record supplies a truthy field, it overwrites the parser-derived value; genres
and languages are unioned. -/
def mergeMedia (media : Option MediaRec) (info : Info) : Info :=
  match media with
  | none => info
  | some m =>
    let info :=
      match m.kind with
      | some k => if k ≠ "" then { info with kind := lowerStr k } else info
      | none => info
    let info := if m.year.truthy then { info with year := m.year } else info
    let info :=
      match m.title with
      | some t => if t ≠ "" then { info with title := t } else info
      | none => info
    let info :=
      if m.genres ≠ [] then { info with genres := unionLower info.genres m.genres }
      else info
    if m.languages ≠ [] then { info with languages := unionLower info.languages m.languages }
    else info

/-- First configured directory among the record's languages
(`config.media_dir(lang)` truthy, first hit wins). -/
def firstLangDir (cfg : Config) : List String → Option String
  | [] => none
  | l :: ls =>
    match cfg.mediaDir l with
    | some d => if d ≠ "" then some d else firstLangDir cfg ls
    | none => firstLangDir cfg ls

/-- `Classifier.set_media_dir`: series bucket for series, else the movie
bucket refined by the documentary genre or the first configured language
directory. -/
def set_media_dir (cfg : Config) (info : Info) : Info :=
  let d :=
    if info.kind = "series" then cfg.series
    else if info.kind = "movie" then
      if info.genres.contains "documentary" then cfg.documentaries
      else
        match firstLangDir cfg info.languages with
        | some ld => ld
        | none => cfg.movies
    else cfg.movies
  { info with media_dir := some d }

/-- `Classifier.set_new_dir`: an empty title is a logged error (the function
returns `None` and the record keeps `new_dir = None`); otherwise the
destination directory `{media_dir}/{title (year)}` and the destination path
are computed.  Returns the record and the number of error-level log events.
(`Utils.make_dirs` is a filesystem effect and is not part of the record.) -/
def set_new_dir (sanitize : String → String) (filename : String) (info : Info) :
    Info × Nat :=
  if info.title = "" then (info, 1)
  else
    let t :=
      if info.year.truthy then info.title ++ " (" ++ info.year.render ++ ")"
      else info.title
    let t := clean_path sanitize t
    let d := joinPath (info.media_dir.getD "") t
    let nf := clean_path sanitize filename
    ({ info with new_dir := some d, new_path := some (joinPath d nf) }, 0)

/-- External collaborators of one classification run: the PTN parse result
(`none` models `PTN.parse` raising, which the source turns into an empty
result), the metadata cache, the external catalog, the filename sanitizer and
the configuration. -/
structure Env where
  ptn : Option PTNResult
  cache : String → Option MediaRec
  provider : String → Option MediaRec
  sanitize : String → String
  cfg : Config

/-- Result of `Classifier.classify`: the final record, the number of
`find_media` (metadata resolver) invocations, the number of external catalog
calls, and the number of error-level log events. -/
structure ClassifyResult where
  info : Info
  resolverCalls : Nat
  providerCalls : Nat
  errors : Nat
deriving Repr

/-- `Classifier.classify` for one file path: `__init__` (basename, extension
split, separator replacement), `set_info_from_title`, `extract_info`,
`cleanup_title`, metadata resolution (skipped entirely for sport-event
records), the catalog merge, `set_media_dir` and `set_new_dir`. -/
def classify (env : Env) (file_path : String) : ClassifyResult :=
  let filename := basename file_path
  let filename_no_ext :=
    String.mk (((splitext filename.data).1).map
      (fun c => if c = '.' || c = '_' then ' ' else c))
  let info := initInfo file_path filename_no_ext
  let info := set_info_from_title (env.ptn.getD {}) filename info
  let info := extract_info filename info
  let info := cleanup_title info
  let (media, pc, rc, e1) :=
    if info.ufc then (none, 0, 0, 0)
    else
      let (m, p, e) := find_media env.cache env.provider info
      (m, p, 1, e)
  let info := mergeMedia media info
  let info := set_media_dir env.cfg info
  let (info, e2) := set_new_dir env.sanitize filename info
  { info := info, resolverCalls := rc, providerCalls := pc, errors := e1 + e2 }

/-! ## Grouping and duplicate resolution (`cleaner.py`) -/

/-- Grouping key of `Cleaner.collect_media_info`:
`f"{title}_{year}_S{season}_E{episode}"`. -/
def mediaKey (i : Info) : String :=
  i.title ++ "_" ++ i.year.render ++ "_S" ++ i.season.render ++ "_E" ++ i.episode.render

/-- Append a record to its group in the media map (`self.media[key].append`),
the map being an association list. -/
def assocAdd (m : List (String × List Info)) (k : String) (i : Info) :
    List (String × List Info) :=
  match m with
  | [] => [(k, [i])]
  | (k0, v) :: rest =>
    if k0 = k then (k0, v ++ [i]) :: rest else (k0, v) :: assocAdd rest k i

/-- Per-record step of the grouping loop of `Cleaner.collect_media_info`: a
record without a title is a logged error and is skipped (never grouped);
otherwise it is appended to the group of its key.  Returns the updated map and
whether the error branch was taken. -/
def collect_media_info_step (m : List (String × List Info)) (info : Info) :
    List (String × List Info) × Bool :=
  if info.title = "" then (m, true)
  else (assocAdd m (mediaKey info) info, false)

/-- Stable insertion into a list sorted ascending by the key `-rank` (that is,
descending by rank): the new element goes before the first element of rank at
most its own, which reproduces the stable order of Python's `sorted(v,
key=lambda x: -x["rank"])` when elements are inserted from last to first. -/
def insertByRank (x : Info) : List Info → List Info
  | [] => [x]
  | y :: ys => if y.rank ≤ x.rank then x :: y :: ys else y :: insertByRank x ys

/-- Stable sort descending by rank, as `sorted(v, key=lambda x: -x["rank"])`. -/
def sortByRankDesc : List Info → List Info
  | [] => []
  | x :: xs => insertByRank x (sortByRankDesc xs)

/-- Action taken by `Cleaner.delete_low_quality` on one record of a group. -/
inductive DupAction where
  | keep : DupAction
  | demote : DupAction
  | delete : DupAction
deriving DecidableEq, Repr

/-- Position-based action assignment of the per-group loop of
`Cleaner.delete_low_quality` (with 0-based positions: the source's counter `i`
is 1-based): position 0 keeps, positions 1 and 2 demote to extras, the rest
are soft-deleted. -/
def assignActions : Nat → List Info → List (Info × DupAction)
  | _, [] => []
  | i, r :: rs =>
    (r, if i = 0 then .keep else if i < 3 then .demote else .delete) ::
      assignActions (i + 1) rs

/-- Plan of `Cleaner.delete_low_quality` for one duplicate group: stable sort
descending by rank, then the positional keep / demote / delete policy. -/
def delete_low_quality_plan (v : List Info) : List (Info × DupAction) :=
  assignActions 0 (sortByRankDesc v)

/-- Number of records of a plan assigned a given action. -/
def countAction (a : DupAction) (l : List (Info × DupAction)) : Nat :=
  (l.filter (fun p => p.2 = a)).length

/-! ## The mover guard (`Utils.move`, lines 78–98) -/

/-- Containment of one character sequence in another (Python's `in` on
strings). -/
def containsSeq (needle hay : List Char) : Bool :=
  hay.tails.any (fun t => List.isPrefixOf needle t)

/-- Containment of `@eadir` in the lowercased string (`'@eadir' in
str.lower(s)`). -/
def hasEadir (s : String) : Bool :=
  containsSeq "@eadir".data ((lowerStr s).data)

/-- Outcome of the guard phase of `Utils.move`, in source order. -/
inductive MoveOutcome where
  /-- `src == dst`: debug log and return (no filesystem access). -/
  | noop : MoveOutcome
  /-- `not src or not dst`: `ValueError` raised. -/
  | invalidArgs : MoveOutcome
  /-- `'@eadir'` in either path: warning log and return. -/
  | skippedSystem : MoveOutcome
  /-- Destination is a configured media root or the deleted-media directory:
  `ValueError` raised. -/
  | refusedProtected : MoveOutcome
  /-- All guards passed: the move proper proceeds. -/
  | proceed : MoveOutcome
deriving DecidableEq, Repr

/-- Guard phase of `Utils.move` (the argument checks of lines 79–90, before
any filesystem access). -/
def move (cfg : Config) (src dst : String) : MoveOutcome :=
  if src = dst then .noop
  else if src = "" ∨ dst = "" then .invalidArgs
  else if hasEadir src || hasEadir dst then .skippedSystem
  else if dst ∈ cfg.mediaDirsValues ∨ dst = cfg.deletedMediaDir then .refusedProtected
  else .proceed

/-- Outcomes of `Utils.move` that raise a `ValueError`. -/
def MoveOutcome.raises : MoveOutcome → Prop
  | .invalidArgs => True
  | .refusedProtected => True
  | _ => False

instance : DecidablePred MoveOutcome.raises := fun o => by
  unfold MoveOutcome.raises
  cases o <;> infer_instance

/-! ## Startup locking -/

/-- Outcome of starting the tool. -/
inductive StartOutcome where
  | ran : StartOutcome
  | exited : Nat → StartOutcome
deriving DecidableEq, Repr

/-- Startup of `cli.py` run as a script (its `__main__` block): the commands
run under `with Utils.get_app_lock()`, a `filelock.FileLock` on
`/tmp/housekeeper.lock` with a one-second timeout.  When another process
already holds the lock (the input flag), acquisition raises
`filelock.Timeout`, which the block catches with `exit(1)`. -/
def cliStartup (lockHeldByOther : Bool) : StartOutcome :=
  if lockHeldByOther then .exited 1 else .ran

/-- `Utils.lock_app` (dead code: no caller in the repository): `fcntl.lockf`
with `LOCK_EX | LOCK_NB` raises `OSError` at once when the lock is held, and
the handler calls Python's `exit()` with no argument — `SystemExit(None)`,
which terminates the process with exit status 0. -/
def lock_app (lockHeldByOther : Bool) : StartOutcome :=
  if lockHeldByOther then .exited 0 else .ran

/-! ## The metadata provider call with retries (`Classifier.tmdb`) -/

/-- Number of retries `Classifier.tmdb` allows (`MAX_RETRIES` of
`classifier.py`). -/
def MAX_RETRIES : Nat := 5

/-- Outcome of one attempt of the external TMDB search, as the `try` body of
`Classifier.tmdb` distinguishes them: a usable result, an `HTTPError` with a
status code, or any other exception. -/
inductive TmdbOutcome where
  | ok : MediaRec → TmdbOutcome
  | httpError : Nat → TmdbOutcome
  | err : TmdbOutcome
deriving DecidableEq, Repr

/-- `Classifier.tmdb` with the external search as an input (one outcome per
attempt index, the index being the `retry` argument of the source): an
`HTTPError` with code 429, 503 or 403 and `retry < MAX_RETRIES` sleeps
`retry` seconds and recurses with `retry + 1`; every other failure falls
through to `return None`.  Returns the result, the number of attempts made and
the list of sleep durations. -/
def tmdb (provider : Nat → TmdbOutcome) (retry : Nat) :
    Option MediaRec × Nat × List Nat :=
  match provider retry with
  | .ok m => (some m, 1, [])
  | .httpError c =>
    if h : (c = 429 ∨ c = 503 ∨ c = 403) ∧ retry < MAX_RETRIES then
      let (r, n, sl) := tmdb provider (retry + 1)
      (r, n + 1, retry :: sl)
    else (none, 1, [])
  | .err => (none, 1, [])
termination_by MAX_RETRIES + 1 - retry
decreasing_by exact Nat.sub_lt_sub_left (Nat.lt_succ_of_lt h.2) (Nat.lt_succ_self retry)

/-! ## Concrete fixtures used by witnesses and counterexamples -/

/-- Record with the `__init__` defaults (used to build single-signal token
records and ranked group members). -/
def blankInfo : Info := initInfo "" ""

/-- Record with a given rank and otherwise default slots. -/
def recR (n : Int) : Info := { blankInfo with rank := n }

/-- Duplicate group of four records, ranks 40, 30, 20, 10. -/
def ex4 : List Info := [recR 40, recR 30, recR 20, recR 10]

/-- Duplicate group of five records with the ranks of the specification's
worked example (§8): 130, 80, 80, −50, −50. -/
def ex5 : List Info := [recR 130, recR 80, recR 80, recR (-50), recR (-50)]

/-- Configuration fixture. -/
def cfg0 : Config :=
  { movies := "/media/movies", series := "/media/series",
    documentaries := "/media/documentaries", unsorted := "/media/unsorted",
    extra := [], deletedMediaDir := "/media/deleted" }

/-- Environment fixture: empty PTN result, empty cache, provider with no
match, identity sanitizer. -/
def env0 : Env :=
  { ptn := none, cache := fun _ => none, provider := fun _ => none,
    sanitize := id, cfg := cfg0 }

/-- Environment fixture whose PTN result carries a year, as PTN returns for a
filename containing a standalone year token. -/
def envY (y : Int) : Env := { env0 with ptn := some { year := some y } }

/-! # Theorems -/

/-! ## Quality ranker (claim C2) -/

/-- Hoisting of one `rank += w` step into an additive contribution. -/
theorem if_push (c : Prop) [Decidable c] (a w : Int) :
    (if c then a + w else a) = a + (if c then w else 0) := by
  split_ifs <;> omega

/-- Resolution contributions of `rank_file` sum to the specification's
resolution weight. -/
theorem resWeight_split (res : Option String) :
    (if res = some "2160p" then FOUR_K else 0) + (if res = some "1080p" then HD else 0) +
      (if res = some "720p" ∨ res = some "480p" ∨ res = some "360p" ∨ res = some "240p" ∨
          res = some "144p" ∨ res = some "240p" then LOW_QUALITY else 0) =
      resWeightSpec res := by
  unfold resWeightSpec
  split_ifs <;> first | rfl | omega | tauto | simp_all

/-- C2: for a token record with exactly one quality signal present,
`rank_file` returns exactly that signal's weight (HDR +100, dubbed +90, 3D
+80, remux +50, 2160p +40, 1080p +30, CD +10, each sub-1080p resolution −50),
and for every record the rank is the sum of the individual weights of the
table. -/
theorem c2_rank_single_and_additive :
    rank_file { blankInfo with hdr := true } = 100 ∧
    rank_file { blankInfo with dubbed := true } = 90 ∧
    rank_file { blankInfo with threed := true } = 80 ∧
    rank_file { blankInfo with remux := true } = 50 ∧
    rank_file { blankInfo with resolution := some "2160p" } = 40 ∧
    rank_file { blankInfo with resolution := some "1080p" } = 30 ∧
    rank_file { blankInfo with cd := true } = 10 ∧
    rank_file { blankInfo with resolution := some "720p" } = -50 ∧
    rank_file { blankInfo with resolution := some "480p" } = -50 ∧
    rank_file { blankInfo with resolution := some "360p" } = -50 ∧
    rank_file { blankInfo with resolution := some "240p" } = -50 ∧
    rank_file { blankInfo with resolution := some "144p" } = -50 ∧
    ∀ info : Info, rank_file info = rankSpecSum info := by
  refine ⟨by decide, by decide, by decide, by decide, by decide, by decide, by decide,
    by decide, by decide, by decide, by decide, by decide, fun info => ?_⟩
  rw [rankSpecSum, ← resWeight_split info.resolution]
  simp only [rank_file, if_push]
  ring

/-! ## Mover guard (claim C9) -/

/-- C9 (amended): a move whose destination is a protected root (a configured
media directory or the deleted-media directory) raises a `ValueError` and is
not executed, unless `src == dst` or either path contains `@eadir`, which the
source checks first and turns into an action-free return; a move with
`src == dst` is always a no-op. -/
theorem c9_move_guard (cfg : Config) (src dst : String)
    (hprot : dst ∈ cfg.mediaDirsValues ∨ dst = cfg.deletedMediaDir)
    (hne : src ≠ dst) (hs : hasEadir src = false) (hd : hasEadir dst = false) :
    (move cfg src dst).raises ∧ move cfg src src = MoveOutcome.noop := by
  constructor
  · unfold move
    rw [if_neg hne]
    by_cases hempty : src = "" ∨ dst = ""
    · rw [if_pos hempty]; trivial
    · rw [if_neg hempty, hs, hd]
      simp only [Bool.or_self, Bool.false_eq_true, if_false, if_pos hprot]
      trivial
  · unfold move
    rw [if_pos rfl]

/-- Witness for `c9_move_guard` at a concrete configuration and paths. -/
theorem c9_move_guard_witness :
    (move cfg0 "/downloads/a.mkv" "/media/movies").raises ∧
      move cfg0 "/downloads/a.mkv" "/downloads/a.mkv" = MoveOutcome.noop :=
  c9_move_guard cfg0 "/downloads/a.mkv" "/media/movies"
    (by decide) (by decide) (by decide) (by decide)

/-- C9 counterexample: the claim as stated — every move request whose
destination is a protected media root raises — is false: when `src == dst`,
the `src == dst` check precedes the protected-destination check, and the call
returns as a successful no-op even though the destination is the protected
movies root. -/
theorem c9_counterexample :
    "/media/movies" ∈ cfg0.mediaDirsValues ∧
      move cfg0 "/media/movies" "/media/movies" = MoveOutcome.noop ∧
      ¬ (move cfg0 "/media/movies" "/media/movies").raises := by
  refine ⟨by decide, by decide, ?_⟩
  intro h
  rw [show move cfg0 "/media/movies" "/media/movies" = MoveOutcome.noop from by decide] at h
  exact h

/-! ## Startup locking (claim C10) -/

/-- C10: when the cross-process lock is already held, a second instance of the
tool (the `cli.py` entry point, whose commands run under
`Utils.get_app_lock()`) exits with status 1 — a non-zero exit — instead of
running; with the lock free it runs.  (`Utils.lock_app`, which would exit with
status 0, has no caller in the repository.) -/
theorem c10_second_instance_exits_nonzero :
    cliStartup true = StartOutcome.exited 1 ∧ (1 : Nat) ≠ 0 ∧
      cliStartup false = StartOutcome.ran := by
  refine ⟨rfl, by decide, rfl⟩

/-! ## Metadata retry policy (claim C8) -/

/-- Behaviour of `Classifier.tmdb` from an arbitrary retry level: at least one
and at most `max (MAX_RETRIES + 1 - retry) 1` attempts are made, the sleep
durations are the consecutive integers starting at `retry` (linear backoff),
and the call returns `None` unless some attempt within the window returned a
result. -/
theorem tmdb_spec (provider : Nat → TmdbOutcome) (retry : Nat) :
    1 ≤ (tmdb provider retry).2.1 ∧
    (tmdb provider retry).2.1 ≤ max (MAX_RETRIES + 1 - retry) 1 ∧
    (tmdb provider retry).2.2 = List.range' retry ((tmdb provider retry).2.1 - 1) ∧
    ((tmdb provider retry).1 = none ∨
      ∃ m k, retry ≤ k ∧ k < retry + (tmdb provider retry).2.1 ∧
        provider k = .ok m ∧ (tmdb provider retry).1 = some m) := by
  rw [tmdb]
  cases hp : provider retry with
  | ok m =>
    exact ⟨by simp, by simp, by simp, Or.inr ⟨m, retry, le_refl _, by simp, hp, rfl⟩⟩
  | httpError c =>
    by_cases h : (c = 429 ∨ c = 503 ∨ c = 403) ∧ retry < MAX_RETRIES
    · simp only [dif_pos h]
      obtain ⟨ih0, ih1, ih2, ih3⟩ := tmdb_spec provider (retry + 1)
      rcases he : tmdb provider (retry + 1) with ⟨r, n, sl⟩
      rw [he] at ih0 ih1 ih2 ih3
      simp only at ih0 ih1 ih2 ih3
      dsimp only
      refine ⟨by omega, by omega, ?_, ?_⟩
      · rw [ih2]
        have hn : n + 1 - 1 = (n - 1) + 1 := by omega
        rw [hn, List.range']
      · rcases ih3 with hnone | ⟨m, k, hk1, hk2, hk3, hk4⟩
        · exact Or.inl hnone
        · exact Or.inr ⟨m, k, by omega, by omega, hk3, hk4⟩
    · simp only [dif_neg h]
      exact ⟨by simp, by simp, by simp, by simp⟩
  | err =>
    exact ⟨by simp, by simp, by simp, by simp⟩
termination_by MAX_RETRIES + 1 - retry
decreasing_by exact Nat.sub_lt_sub_left (Nat.lt_succ_of_lt h.2) (Nat.lt_succ_self retry)

/-- C8: `Classifier.tmdb`, called with `retry = 0`, performs at most
`MAX_RETRIES = 5` retries beyond the first attempt, sleeps the linearly
growing durations `0, 1, 2, ...` between attempts, and — since the model is a
total function — never propagates a provider failure: it either returns the
result of a successful attempt within the retry window or returns `None`
(rate-limit codes 429/503/403 exhaust the window, every other error falls
through at once). -/
theorem c8_tmdb_retry_bounded (provider : Nat → TmdbOutcome) :
    (tmdb provider 0).2.1 - 1 ≤ MAX_RETRIES ∧
    (tmdb provider 0).2.2 = List.range' 0 ((tmdb provider 0).2.1 - 1) ∧
    ((tmdb provider 0).1 = none ∨
      ∃ m k, k ≤ MAX_RETRIES ∧ provider k = .ok m ∧ (tmdb provider 0).1 = some m) := by
  obtain ⟨h0, h1, h2, h3⟩ := tmdb_spec provider 0
  refine ⟨?_, h2, ?_⟩
  · revert h1
    unfold MAX_RETRIES
    omega
  · rcases h3 with hnone | ⟨m, k, hk1, hk2, hk3, hk4⟩
    · exact Or.inl hnone
    · refine Or.inr ⟨m, k, ?_, hk3, hk4⟩
      revert h1 hk2
      unfold MAX_RETRIES
      omega


/-! ## Duplicate resolution (claim C1) -/

/-- Insertion preserves length. -/
theorem insertByRank_length (x : Info) (l : List Info) :
    (insertByRank x l).length = l.length + 1 := by
  induction l with
  | nil => rfl
  | cons y ys ih =>
    unfold insertByRank
    split_ifs <;> simp [ih]

/-- Membership in an insertion. -/
theorem mem_insertByRank {y x : Info} {l : List Info} :
    y ∈ insertByRank x l ↔ y = x ∨ y ∈ l := by
  induction l with
  | nil => simp [insertByRank]
  | cons z zs ih =>
    unfold insertByRank
    split_ifs <;> simp [ih] <;> tauto

/-- The sort is a re-arrangement: membership is preserved. -/
theorem mem_sortByRankDesc {y : Info} {l : List Info} :
    y ∈ sortByRankDesc l ↔ y ∈ l := by
  induction l with
  | nil => simp [sortByRankDesc]
  | cons x xs ih =>
    simp [sortByRankDesc, mem_insertByRank, ih]

/-- The sort preserves length. -/
theorem sortByRankDesc_length (l : List Info) :
    (sortByRankDesc l).length = l.length := by
  induction l with
  | nil => rfl
  | cons x xs ih => simp [sortByRankDesc, insertByRank_length, ih]

/-- Insertion into a descending-by-rank list stays descending. -/
theorem insertByRank_pairwise {x : Info} {l : List Info}
    (h : l.Pairwise (fun a b => b.rank ≤ a.rank)) :
    (insertByRank x l).Pairwise (fun a b => b.rank ≤ a.rank) := by
  induction l with
  | nil => simp [insertByRank]
  | cons y ys ih =>
    rw [List.pairwise_cons] at h
    obtain ⟨hy, hys⟩ := h
    unfold insertByRank
    split_ifs with hc
    · rw [List.pairwise_cons]
      refine ⟨?_, by rw [List.pairwise_cons]; exact ⟨hy, hys⟩⟩
      intro z hz
      rcases List.mem_cons.mp hz with hz | hz
      · subst hz; exact hc
      · exact le_trans (hy z hz) hc
    · rw [List.pairwise_cons]
      refine ⟨?_, ih hys⟩
      intro z hz
      rcases mem_insertByRank.mp hz with hz | hz
      · subst hz; omega
      · exact hy z hz

/-- The sorted group is descending by rank. -/
theorem sortByRankDesc_pairwise (l : List Info) :
    (sortByRankDesc l).Pairwise (fun a b => b.rank ≤ a.rank) := by
  induction l with
  | nil => simp [sortByRankDesc]
  | cons x xs ih => exact insertByRank_pairwise ih

/-- Unfolding of `countAction` over a head record. -/
theorem countAction_cons (a : DupAction) (p : Info × DupAction) (l : List (Info × DupAction)) :
    countAction a (p :: l) = (if p.2 = a then 1 else 0) + countAction a l := by
  unfold countAction
  rcases p with ⟨r, b⟩
  by_cases hb : b = a <;> simp [List.filter, hb] <;> omega

/-- Positions past the first are never kept. -/
theorem assignActions_no_keep (l : List Info) (i : Nat) (h : 1 ≤ i) :
    countAction .keep (assignActions i l) = 0 := by
  induction l generalizing i with
  | nil => rfl
  | cons r rs ih =>
    unfold assignActions
    rw [countAction_cons]
    have hi : i ≠ 0 := by omega
    by_cases h3 : i < 3 <;> simp [hi, h3, ih (i + 1) (by omega)]

/-- From position 3 on (0-based), everything is deleted. -/
theorem assignActions_ge3 (l : List Info) (i : Nat) (h : 3 ≤ i) :
    countAction .delete (assignActions i l) = l.length ∧
      countAction .demote (assignActions i l) = 0 := by
  induction l generalizing i with
  | nil => exact ⟨rfl, rfl⟩
  | cons r rs ih =>
    unfold assignActions
    rw [countAction_cons, countAction_cons]
    have hi : i ≠ 0 := by omega
    have h3 : ¬ i < 3 := by omega
    obtain ⟨ih1, ih2⟩ := ih (i + 1) (by omega)
    constructor <;> simp [hi, h3, ih1, ih2] <;> omega

/-- Action counts from position 2 (0-based). -/
theorem assignActions_two (l : List Info) :
    countAction .demote (assignActions 2 l) = min l.length 1 ∧
      countAction .delete (assignActions 2 l) = l.length - 1 := by
  cases l with
  | nil => exact ⟨rfl, rfl⟩
  | cons r rs =>
    unfold assignActions
    rw [countAction_cons, countAction_cons]
    obtain ⟨h1, h2⟩ := assignActions_ge3 rs 3 (by omega)
    constructor <;> simp [h1, h2] <;> omega

/-- Action counts from position 1 (0-based). -/
theorem assignActions_one (l : List Info) :
    countAction .demote (assignActions 1 l) = min l.length 2 ∧
      countAction .delete (assignActions 1 l) = l.length - 2 := by
  cases l with
  | nil => exact ⟨rfl, rfl⟩
  | cons r rs =>
    unfold assignActions
    rw [countAction_cons, countAction_cons]
    obtain ⟨h1, h2⟩ := assignActions_two rs
    constructor <;> simp [h1, h2] <;> omega

/-- No kept pair occurs past the first position. -/
theorem assignActions_keep_mem (l : List Info) (i : Nat) (hi : 1 ≤ i) (r : Info) :
    (r, DupAction.keep) ∉ assignActions i l := by
  induction l generalizing i with
  | nil => simp [assignActions]
  | cons x xs ih =>
    unfold assignActions
    intro hmem
    rcases List.mem_cons.mp hmem with hx | hx
    · have : i ≠ 0 := by omega
      by_cases h3 : i < 3 <;> simp [this, h3] at hx
    · exact ih (i + 1) (by omega) hx

/-- C1 (amended): for a non-empty duplicate group of `N` records,
`delete_low_quality` keeps exactly 1 record (the first after the stable
descending sort by rank), demotes exactly `min (N − 1) 2` records to the
extras location, deletes exactly `max (N − 3) 0` records (truncated natural
subtraction: positions 4 and beyond, 1-indexed), and the kept record's rank is
greater than or equal to the rank of every record of the group. -/
theorem c1_duplicate_policy_counts (v : List Info) (hv : v ≠ []) :
    countAction .keep (delete_low_quality_plan v) = 1 ∧
    countAction .demote (delete_low_quality_plan v) = min (v.length - 1) 2 ∧
    countAction .delete (delete_low_quality_plan v) = v.length - 3 ∧
    ∀ r, (r, DupAction.keep) ∈ delete_low_quality_plan v → ∀ x ∈ v, x.rank ≤ r.rank := by
  have hlen := sortByRankDesc_length v
  have hpw := sortByRankDesc_pairwise v
  unfold delete_low_quality_plan
  cases hs : sortByRankDesc v with
  | nil =>
    exfalso
    rw [hs] at hlen
    cases v with
    | nil => exact hv rfl
    | cons a as => simp at hlen
  | cons h t =>
    rw [hs] at hlen hpw
    rw [List.pairwise_cons] at hpw
    obtain ⟨hy, _⟩ := hpw
    unfold assignActions
    refine ⟨?_, ?_, ?_, ?_⟩
    · rw [countAction_cons]
      simp [assignActions_no_keep t 1 (by omega)]
    · rw [countAction_cons]
      have h1 := (assignActions_one t).1
      simp only [List.length_cons] at hlen
      simp [h1]
      omega
    · rw [countAction_cons]
      have h1 := (assignActions_one t).2
      simp only [List.length_cons] at hlen
      simp [h1]
      omega
    · intro r hr x hx
      have hx2 : x ∈ h :: t := by
        rw [← hs]
        exact mem_sortByRankDesc.mpr hx
      have hrh : r = h := by
        rcases List.mem_cons.mp hr with h1 | h1
        · simpa using congrArg Prod.fst h1
        · exact absurd h1 (assignActions_keep_mem t 1 (by omega) r)
      subst hrh
      rcases List.mem_cons.mp hx2 with h2 | h2
      · subst h2; exact le_refl _
      · exact hy x h2

/-- Witness for `c1_duplicate_policy_counts` at the specification's worked
example (§8): ranks 130, 80, 80, −50, −50 keep one record, demote two, delete
two. -/
theorem c1_duplicate_policy_counts_witness :
    countAction .keep (delete_low_quality_plan ex5) = 1 ∧
    countAction .demote (delete_low_quality_plan ex5) = min (ex5.length - 1) 2 ∧
    countAction .delete (delete_low_quality_plan ex5) = ex5.length - 3 ∧
    ∀ r, (r, DupAction.keep) ∈ delete_low_quality_plan ex5 → ∀ x ∈ ex5, x.rank ≤ r.rank :=
  c1_duplicate_policy_counts ex5 (by decide)

/-- C1 counterexample: the claim's delete count `max (N − 4) 0` is wrong.  For
a group of four records the loop deletes its fourth record (positions `i ≥ 4`
are deleted, so `max (N − 3) 0` records), while the claimed formula gives
zero. -/
theorem c1_delete_count_counterexample :
    countAction DupAction.delete (delete_low_quality_plan ex4) ≠ ex4.length - 4 := by
  decide


/-! ## Sport-event classification (claims C3, C4) and empty titles (claim C5) -/

/-- Replacing the title of a record by its own title is the identity. -/
theorem update_title_self (i : Info) : { i with title := i.title } = i := by
  cases i; rfl

/-- `cleanup_title` leaves a record unchanged when its title matches neither
the season/episode split nor the year-strip pattern and is strip-invariant. -/
theorem cleanup_title_inert (i : Info) (t : String) (h : i.title = t) (ht : ¬ t = "")
    (h1 : seScan t.data = none) (h2 : stripChars t.data = t.data)
    (h3 : yearScan t.data = none) :
    cleanup_title i = i := by
  have hne : ¬ i.title = "" := by rw [h]; exact ht
  unfold cleanup_title cleanupSE
  rw [if_neg hne, h, h1]
  dsimp only
  rw [h, h2, h3]
  dsimp only
  rw [← h]

/-- `cleanup_title` is the identity on records whose title is `"UFC"`. -/
theorem cleanup_title_UFC (i : Info) (h : i.title = "UFC") : cleanup_title i = i :=
  cleanup_title_inert i "UFC" h (by decide) (by decide) (by decide) (by decide)

/-- The flag stage of `extract_info` records exactly the UFC-regex match in
the `ufc` slot. -/
theorem extract_info_flags_ufc (f : String) (i : Info) :
    (extract_info_flags f i).ufc = ufcRe f := by
  unfold extract_info_flags
  dsimp only
  split
  all_goals try split
  all_goals try split
  all_goals rfl

/-- Fields forced by the UFC override of `extract_info`. -/
theorem extract_info_ufc (f : String) (i : Info) (h : ufcRe f = true) :
    (extract_info f i).kind = "series" ∧ (extract_info f i).season = PyV.int 1 ∧
      (extract_info f i).episode = PyV.int 1 ∧ (extract_info f i).title = "UFC" ∧
      (extract_info f i).ufc = true := by
  simp only [extract_info]
  rw [extract_info_flags_ufc, h, if_pos rfl]
  exact ⟨rfl, rfl, rfl, rfl, rfl⟩

/-- `set_media_dir` writes only `media_dir`. -/
theorem set_media_dir_title (cfg : Config) (i : Info) :
    (set_media_dir cfg i).title = i.title := rfl

/-- `set_media_dir` preserves `kind`. -/
theorem set_media_dir_kind (cfg : Config) (i : Info) :
    (set_media_dir cfg i).kind = i.kind := rfl

/-- `set_media_dir` preserves `season`. -/
theorem set_media_dir_season (cfg : Config) (i : Info) :
    (set_media_dir cfg i).season = i.season := rfl

/-- `set_media_dir` preserves `episode`. -/
theorem set_media_dir_episode (cfg : Config) (i : Info) :
    (set_media_dir cfg i).episode = i.episode := rfl

/-- `set_media_dir` preserves `year`. -/
theorem set_media_dir_year (cfg : Config) (i : Info) :
    (set_media_dir cfg i).year = i.year := rfl

/-- `set_new_dir` preserves the title. -/
theorem set_new_dir_title (san : String → String) (fn : String) (i : Info) :
    (set_new_dir san fn i).1.title = i.title := by
  unfold set_new_dir
  split_ifs <;> rfl

/-- `set_new_dir` preserves `kind`. -/
theorem set_new_dir_kind (san : String → String) (fn : String) (i : Info) :
    (set_new_dir san fn i).1.kind = i.kind := by
  unfold set_new_dir
  split_ifs <;> rfl

/-- `set_new_dir` preserves `season`. -/
theorem set_new_dir_season (san : String → String) (fn : String) (i : Info) :
    (set_new_dir san fn i).1.season = i.season := by
  unfold set_new_dir
  split_ifs <;> rfl

/-- `set_new_dir` preserves `episode`. -/
theorem set_new_dir_episode (san : String → String) (fn : String) (i : Info) :
    (set_new_dir san fn i).1.episode = i.episode := by
  unfold set_new_dir
  split_ifs <;> rfl

/-- `set_new_dir` preserves `year`. -/
theorem set_new_dir_year (san : String → String) (fn : String) (i : Info) :
    (set_new_dir san fn i).1.year = i.year := by
  unfold set_new_dir
  split_ifs <;> rfl

/-- `set_new_dir` reports an error for an empty title. -/
theorem set_new_dir_err (san : String → String) (fn : String) (i : Info) (h : i.title = "") :
    (set_new_dir san fn i).2 = 1 := by
  unfold set_new_dir
  rw [if_pos h]

/-- Merging an absent catalog record changes nothing. -/
theorem mergeMedia_none (i : Info) : mergeMedia none i = i := rfl

/-- Shared shape of a classification of a UFC filename: the record carries
kind `series`, season 1, episode 1 and title `UFC`, and neither the resolver
nor the external catalog is called. -/
theorem classify_ufc_fields (env : Env) (p : String) (h : ufcRe (basename p) = true) :
    (classify env p).info.kind = "series" ∧ (classify env p).info.season = PyV.int 1 ∧
      (classify env p).info.episode = PyV.int 1 ∧ (classify env p).info.title = "UFC" ∧
      (classify env p).resolverCalls = 0 ∧ (classify env p).providerCalls = 0 := by
  have hx := extract_info_ufc (basename p)
    (set_info_from_title ((env.ptn).getD {}) (basename p)
      (initInfo p (String.mk (((splitext (basename p).data).1).map
        (fun c => if c = '.' || c = '_' then ' ' else c))))) h
  simp only [classify]
  generalize hj : extract_info (basename p)
      (set_info_from_title ((env.ptn).getD {}) (basename p)
        (initInfo p (String.mk (((splitext (basename p).data).1).map
          (fun c => if c = '.' || c = '_' then ' ' else c))))) = j at hx ⊢
  obtain ⟨hk, hs, he, ht, hu⟩ := hx
  have hcl : cleanup_title j = j := cleanup_title_UFC j ht
  rw [hcl]
  simp only [hu, if_true, mergeMedia_none]
  exact ⟨by rw [set_new_dir_kind, set_media_dir_kind, hk],
    by rw [set_new_dir_season, set_media_dir_season, hs],
    by rw [set_new_dir_episode, set_media_dir_episode, he],
    by rw [set_new_dir_title, set_media_dir_title, ht],
    trivial, trivial⟩

/-- C3 (amended): for every file whose basename matches the UFC pattern,
classification forces `kind = series`, `season = 1` and the fixed constant
`episode = 1` (not an incrementing or event-derived number), and neither the
metadata resolver (`find_media`) nor the external catalog is invoked for that
record — zero provider calls. -/
theorem c3_ufc_forces_series (env : Env) (p : String) (h : ufcRe (basename p) = true) :
    (classify env p).info.kind = "series" ∧ (classify env p).info.season = PyV.int 1 ∧
      (classify env p).info.episode = PyV.int 1 ∧ (classify env p).resolverCalls = 0 ∧
      (classify env p).providerCalls = 0 := by
  obtain ⟨hk, hs, he, _, hr, hp2⟩ := classify_ufc_fields env p h
  exact ⟨hk, hs, he, hr, hp2⟩

/-- Witness for `c3_ufc_forces_series` at a concrete UFC filename and
environment. -/
theorem c3_ufc_forces_series_witness :
    (classify env0 "UFC.300.mkv").info.kind = "series" ∧
      (classify env0 "UFC.300.mkv").info.season = PyV.int 1 ∧
      (classify env0 "UFC.300.mkv").info.episode = PyV.int 1 ∧
      (classify env0 "UFC.300.mkv").resolverCalls = 0 ∧
      (classify env0 "UFC.300.mkv").providerCalls = 0 :=
  c3_ufc_forces_series env0 "UFC.300.mkv" (by decide)

/-- C3 counterexample: the episode number is not derived from or incremented
per event — two distinct UFC event filenames both classify with the constant
episode 1. -/
theorem c3_episode_constant_counterexample :
    "UFC.300.mkv" ≠ "UFC.301.mkv" ∧
      (classify env0 "UFC.300.mkv").info.episode = PyV.int 1 ∧
      (classify env0 "UFC.301.mkv").info.episode = PyV.int 1 := by
  exact ⟨by decide, by decide, by decide⟩

/-- Strings with equal character data are equal. -/
theorem stringData_inj {a b : String} (h : a.data = b.data) : a = b := by
  cases a
  cases b
  exact congrArg String.mk h

/-- C4 (amended): any two records classified from UFC filenames carry the
identical title `"UFC"`, season 1 and episode 1, and they fall into the same
duplicate-resolution group key exactly when their year values render to the
same string in the key (the `{year}` segment of
`f"{title}_{year}_S{season}_E{episode}"`): equal rendered years give equal
keys, and equal keys force equal rendered years by cancelling the fixed
`UFC_`-prefix and `_S1_E1`-suffix of the key. -/
theorem c4_ufc_same_identity (env1 env2 : Env) (p1 p2 : String)
    (h1 : ufcRe (basename p1) = true) (h2 : ufcRe (basename p2) = true) :
    (classify env1 p1).info.title = "UFC" ∧ (classify env2 p2).info.title = "UFC" ∧
      (classify env1 p1).info.season = (classify env2 p2).info.season ∧
      (classify env1 p1).info.episode = (classify env2 p2).info.episode ∧
      (mediaKey (classify env1 p1).info = mediaKey (classify env2 p2).info ↔
        (classify env1 p1).info.year.render = (classify env2 p2).info.year.render) := by
  obtain ⟨hk1, hs1, he1, ht1, _, _⟩ := classify_ufc_fields env1 p1 h1
  obtain ⟨hk2, hs2, he2, ht2, _, _⟩ := classify_ufc_fields env2 p2 h2
  refine ⟨ht1, ht2, by rw [hs1, hs2], by rw [he1, he2], ?_, ?_⟩
  · intro hkey
    unfold mediaKey at hkey
    rw [ht1, ht2, hs1, hs2, he1, he2] at hkey
    have hd := congrArg String.data hkey
    simp only [String.data_append, List.append_assoc] at hd
    have hd2 := List.append_cancel_left hd
    have hd3 := List.append_cancel_left hd2
    exact stringData_inj (List.append_cancel_right hd3)
  · intro hy
    unfold mediaKey
    rw [ht1, ht2, hs1, hs2, he1, he2, hy]

/-- Witness for `c4_ufc_same_identity` at two concrete UFC filenames. -/
theorem c4_ufc_same_identity_witness :
    (classify env0 "UFC.300.mkv").info.title = "UFC" ∧
      (classify env0 "UFC.301.mkv").info.title = "UFC" ∧
      (classify env0 "UFC.300.mkv").info.season = (classify env0 "UFC.301.mkv").info.season ∧
      (classify env0 "UFC.300.mkv").info.episode = (classify env0 "UFC.301.mkv").info.episode ∧
      (mediaKey (classify env0 "UFC.300.mkv").info =
          mediaKey (classify env0 "UFC.301.mkv").info ↔
        (classify env0 "UFC.300.mkv").info.year.render =
          (classify env0 "UFC.301.mkv").info.year.render) :=
  c4_ufc_same_identity env0 env0 "UFC.300.mkv" "UFC.301.mkv" (by decide) (by decide)

/-- C4 counterexample: two distinct UFC event filenames do not always land in
the same group key — the key includes the year, and a filename carrying a year
token (which the PTN parser extracts, modelled by the parser-result input)
yields `UFC_2024_S1_E1` for one event and `UFC_2023_S1_E1` for the other. -/
theorem c4_group_key_counterexample :
    ufcRe (basename "UFC.300.2024.1080p.mkv") = true ∧
      ufcRe (basename "UFC.299.2023.1080p.mkv") = true ∧
      "UFC.300.2024.1080p.mkv" ≠ "UFC.299.2023.1080p.mkv" ∧
      mediaKey (classify (envY 2024) "UFC.300.2024.1080p.mkv").info ≠
        mediaKey (classify (envY 2023) "UFC.299.2023.1080p.mkv").info := by
  exact ⟨by decide, by decide, by decide, by decide⟩

/-- C5: a record whose classification ends with an empty title is a reported
error, not a silent skip — `set_new_dir` logs an error for it inside
`classify` — and the grouping loop of `collect_media_info` excludes it (the
media map is unchanged and the error branch is taken) instead of grouping it
under an empty key. -/
theorem c5_empty_title_is_error (env : Env) (p : String)
    (h : (classify env p).info.title = "") :
    1 ≤ (classify env p).errors ∧
      ∀ m, collect_media_info_step m (classify env p).info = (m, true) := by
  constructor
  · revert h
    simp only [classify]
    intro h
    rw [set_new_dir_title] at h
    have he2 := set_new_dir_err env.sanitize (basename p) _ h
    rw [he2]
    omega
  · intro m
    simp [collect_media_info_step, h]

/-- Witness for `c5_empty_title_is_error`: the file `12020.mkv` (no parser
tokens) reaches an empty title — `extract_year` takes `1202` as the year, and
the year-strip of `cleanup_title` then consumes the whole title `12020` —
so its classification reports an error and the record is never grouped. -/
theorem c5_empty_title_is_error_witness :
    1 ≤ (classify env0 "12020.mkv").errors ∧
      ∀ m, collect_media_info_step m (classify env0 "12020.mkv").info = (m, true) :=
  c5_empty_title_is_error env0 "12020.mkv" (by decide)


/-! ## Year promotion in `cleanup_title` (claim C7) -/

/-- The title output of `cleanupSE` is the string-level `cleanupSET`. -/
theorem cleanupSE_title (i : Info) : (cleanupSE i).title = cleanupSET i.title := by
  unfold cleanupSE cleanupSET
  cases hse : seScan i.title.data with
  | none => rfl
  | some r => rcases r with ⟨g1, se, ep, g4⟩; rfl

/-- The season/episode split stage never touches the year slot. -/
theorem cleanupSE_year (i : Info) : (cleanupSE i).year = i.year := by
  unfold cleanupSE
  cases hse : seScan i.title.data with
  | none => rfl
  | some r => rcases r with ⟨g1, se, ep, g4⟩; rfl

/-- The title output of `cleanup_title` is a function of the title alone. -/
theorem cleanup_title_title (i : Info) :
    (cleanup_title i).title = cleanupTitleOnly i.title := by
  simp only [cleanup_title, cleanupTitleOnly]
  by_cases h : i.title = ""
  · rw [if_pos h, if_pos h]
  · rw [if_neg h, if_neg h, ← cleanupSE_title]
    cases hy : yearScan (cleanupSE i).title.data with
    | none => rfl
    | some r => rcases r with ⟨p, y⟩; rfl

/-- C7 (amended): during title normalization of a record with a non-empty
title, when the year pattern matches the split-and-stripped title — the first
four-digit token preceded by a non-letter — the token is promoted to the
record's year field unconditionally, overwriting any year already set, and the
title is cut down to the characters before the token (everything after it is
discarded, trailing or not); only when the pattern does not match is the
existing year value left unchanged. -/
theorem c7_year_strip_overwrites (i : Info) (h : ¬ i.title = "") :
    (∀ p y, yearScan (cleanupSE i).title.data = some (p, y) →
      (cleanup_title i).year = PyV.str (String.mk y) ∧
        (cleanup_title i).title = String.mk p) ∧
    (yearScan (cleanupSE i).title.data = none → (cleanup_title i).year = i.year) := by
  simp only [cleanup_title]
  rw [if_neg h]
  constructor
  · intro p y hy
    rw [hy]
    exact ⟨rfl, rfl⟩
  · intro hy
    rw [hy]
    exact cleanupSE_year i

/-- Record fixture for claim C7: a title with an embedded year token that is
not trailing, and a year slot that is already set. -/
def iC7 : Info := { blankInfo with title := "Movie 2020 Extra", year := PyV.int 1999 }

/-- Witness for `c7_year_strip_overwrites` at `iC7`. -/
theorem c7_year_strip_overwrites_witness :
    (∀ p y, yearScan (cleanupSE iC7).title.data = some (p, y) →
      (cleanup_title iC7).year = PyV.str (String.mk y) ∧
        (cleanup_title iC7).title = String.mk p) ∧
    (yearScan (cleanupSE iC7).title.data = none → (cleanup_title iC7).year = iC7.year) :=
  c7_year_strip_overwrites iC7 (by decide)

/-- C7 counterexample: the claim's guard "only if year is not already set" is
not in the code — a record whose year is already `1999` still has it
overwritten by the `2020` token of the title (and the token is not even
trailing: the text after it is discarded). -/
theorem c7_overwrite_counterexample :
    iC7.year = PyV.int 1999 ∧ (cleanup_title iC7).year = PyV.str "2020" ∧
      (cleanup_title iC7).year ≠ PyV.int 1999 ∧ (cleanup_title iC7).title = "Movie" := by
  exact ⟨rfl, by decide, by decide, by decide⟩

/-! ## Idempotence of title normalization (claim C6) -/


/-- A letter is not Python whitespace. -/
theorem letter_not_ws (c : Char) (h : isLetterAZ c = true) : isPyWS c = false := by
  unfold isLetterAZ at h
  unfold isPyWS
  rcases Bool.or_eq_true_iff.mp h with h1 | h1 <;>
    rcases Bool.and_eq_true_iff.mp h1 with ⟨h2, h3⟩ <;>
    · simp only [Bool.or_eq_false_iff]
      refine ⟨⟨⟨⟨⟨?_, ?_⟩, ?_⟩, ?_⟩, ?_⟩, ?_⟩ <;>
        · rw [decide_eq_false_iff_not]
          intro he
          subst he
          revert h2 h3
          decide

/-- A `\\d{4}` match at the head survives appending. -/
theorem fourDigits_append (a b : List Char) (y : List Char) (h : fourDigits a = some y) :
    fourDigits (a ++ b) = some y := by
  match a with
  | c1 :: c2 :: c3 :: c4 :: rest =>
    unfold fourDigits at h ⊢
    simp only [List.cons_append]
    exact h
  | [] | [_] | [_, _] | [_, _, _] => simp [fourDigits] at h

/-- A separator-then-year match survives appending (possibly with a
different capture, when the appended text completes an earlier digit run). -/
theorem sepYear_append (m q : List Char) (y : List Char) (h : sepYear m = some y) :
    ∃ y2, sepYear (m ++ q) = some y2 := by
  induction m with
  | nil => simp [sepYear] at h
  | cons c rest ih =>
    rw [List.cons_append]
    unfold sepYear at h ⊢
    by_cases hc : isLetterAZ c = true
    · rw [hc] at h
      simp at h
    · rw [Bool.not_eq_true] at hc
      rw [hc] at h ⊢
      simp only [Bool.false_eq_true, if_false] at h ⊢
      cases hf : fourDigits rest with
      | some y1 =>
        rw [fourDigits_append rest q y1 hf]
        exact ⟨y1, rfl⟩
      | none =>
        rw [hf] at h
        obtain ⟨y2, hy2⟩ := ih h
        cases hf2 : fourDigits (rest ++ q) with
        | some y3 => exact ⟨y3, rfl⟩
        | none => exact ⟨y2, hy2⟩

/-- A separator-then-year match survives prepending one non-letter. -/
theorem sepYear_cons_of_tail (c : Char) (q y : List Char) (hc : isLetterAZ c = false)
    (h : sepYear q = some y) : ∃ y2, sepYear (c :: q) = some y2 := by
  unfold sepYear
  rw [hc]
  simp only [Bool.false_eq_true, if_false]
  cases hf : fourDigits q with
  | some y1 => exact ⟨y1, rfl⟩
  | none => exact ⟨y, h⟩

/-- Structure of a first match of the year-strip pattern: the input splits as
the captured group 1 followed by a matching remainder, no earlier match exists
(in particular none inside group 1), and group 1 is empty or ends in a letter
(a trailing non-letter would have been absorbed into an earlier separator). -/
theorem yearScan_struct (l : List Char) :
    ∀ p y, yearScan l = some (p, y) →
    (∃ q, l = p ++ q ∧ sepYear q = some y) ∧ yearScan p = none ∧
      (p = [] ∨ ∃ c, p.getLast? = some c ∧ isLetterAZ c = true) := by
  induction l with
  | nil => intro p y h; simp [yearScan] at h
  | cons c rest ih =>
    intro p y h
    unfold yearScan at h
    cases hs : sepYear (c :: rest) with
    | some y1 =>
      rw [hs] at h
      simp only [Option.some.injEq, Prod.mk.injEq] at h
      obtain ⟨hp, hy⟩ := h
      subst hp
      subst hy
      exact ⟨⟨c :: rest, rfl, hs⟩, rfl, Or.inl rfl⟩
    | none =>
      rw [hs] at h
      cases hr : yearScan rest with
      | none => rw [hr] at h; simp at h
      | some pr =>
        rcases pr with ⟨p1, y1⟩
        rw [hr] at h
        simp only [Option.some.injEq, Prod.mk.injEq] at h
        obtain ⟨hp, hy⟩ := h
        subst hp
        subst hy
        obtain ⟨⟨q, hq, hsep⟩, hnone, hlast⟩ := ih p1 _ hr
        have hcne : isLetterAZ c = true ∨ p1 ≠ [] := by
          by_cases hc : isLetterAZ c = true
          · exact Or.inl hc
          · right
            intro hp1
            subst hp1
            simp only [List.nil_append] at hq
            subst hq
            obtain ⟨y2, h2⟩ := sepYear_cons_of_tail c _ _ (Bool.not_eq_true _ ▸ hc) hsep
            rw [h2] at hs
            exact Option.noConfusion hs
        have hspc : sepYear (c :: p1) = none := by
          cases hsp : sepYear (c :: p1) with
          | none => rfl
          | some y3 =>
            exfalso
            obtain ⟨y4, h4⟩ := sepYear_append (c :: p1) q _ hsp
            rw [List.cons_append, ← hq] at h4
            rw [h4] at hs
            exact Option.noConfusion hs
        refine ⟨⟨q, by rw [List.cons_append, hq], hsep⟩, ?_, ?_⟩
        · unfold yearScan
          rw [hspc, hnone]
        · rcases hlast with hp1 | ⟨c2, hg, hl⟩
          · subst hp1
            right
            refine ⟨c, rfl, ?_⟩
            rcases hcne with hc | hne
            · exact hc
            · exact absurd rfl hne
          · right
            refine ⟨c2, ?_, hl⟩
            cases p1 with
            | nil => simp at hg
            | cons a as => rw [List.getLast?_cons_cons]; exact hg

/-- The head of a `dropWhile` result fails the predicate. -/
theorem dropWhile_head_false (p : Char → Bool) (l : List Char) (c : Char) (t : List Char)
    (h : List.dropWhile p l = c :: t) : p c = false := by
  induction l with
  | nil => simp [List.dropWhile] at h
  | cons a as ih =>
    rw [List.dropWhile_cons] at h
    by_cases hp : p a = true
    · rw [if_pos hp] at h
      exact ih h
    · rw [Bool.not_eq_true] at hp
      rw [hp] at h
      simp only [Bool.false_eq_true, if_false, List.cons.injEq] at h
      rw [← h.1]
      exact hp

/-- `dropWhile` is the identity when the head already fails the predicate. -/
theorem dropWhile_eq_self_of_head (p : Char → Bool) (l : List Char)
    (h : ∀ c t, l = c :: t → p c = false) : List.dropWhile p l = l := by
  cases l with
  | nil => rfl
  | cons a as =>
    rw [List.dropWhile_cons, h a as rfl]
    simp

/-- A list is a dropped part followed by its `dropWhile` result. -/
theorem dropWhile_append_decomp (p : Char → Bool) (l : List Char) :
    ∃ w, l = w ++ List.dropWhile p l := by
  induction l with
  | nil => exact ⟨[], rfl⟩
  | cons a as ih =>
    rw [List.dropWhile_cons]
    by_cases hp : p a = true
    · obtain ⟨w, hw⟩ := ih
      rw [if_pos hp]
      exact ⟨a :: w, by rw [List.cons_append, ← hw]⟩
    · rw [Bool.not_eq_true] at hp
      rw [hp]
      simp only [Bool.false_eq_true, if_false]
      exact ⟨[], rfl⟩

/-- The first character of a stripped string is not whitespace. -/
theorem stripChars_head_not_ws (l : List Char) (c : Char) (t : List Char)
    (h : stripChars l = c :: t) : isPyWS c = false := by
  unfold stripChars at h
  obtain ⟨w, hw⟩ := dropWhile_append_decomp isPyWS (List.dropWhile isPyWS l).reverse
  have hm : List.dropWhile isPyWS l =
      ((List.dropWhile isPyWS l).reverse.dropWhile isPyWS).reverse ++ w.reverse := by
    have := congrArg List.reverse hw
    rw [List.reverse_reverse, List.reverse_append] at this
    exact this
  rw [h] at hm
  exact dropWhile_head_false isPyWS l c (t ++ w.reverse) (by rw [hm, List.cons_append])

/-- The last character of a stripped string is not whitespace. -/
theorem stripChars_last_not_ws (l : List Char) (c : Char)
    (h : (stripChars l).getLast? = some c) : isPyWS c = false := by
  unfold stripChars at h
  rw [List.getLast?_reverse] at h
  cases hd : List.dropWhile isPyWS (List.dropWhile isPyWS l).reverse with
  | nil => rw [hd] at h; exact Option.noConfusion h
  | cons a as =>
    rw [hd] at h
    simp only [List.head?_cons, Option.some.injEq] at h
    rw [← h]
    exact dropWhile_head_false isPyWS _ a as hd

/-- Stripping is the identity on a string whose first and last characters are
not whitespace. -/
theorem stripChars_eq_self (l : List Char)
    (hh : ∀ c t, l = c :: t → isPyWS c = false)
    (hl : ∀ c, l.getLast? = some c → isPyWS c = false) :
    stripChars l = l := by
  unfold stripChars
  rw [dropWhile_eq_self_of_head isPyWS l hh]
  rw [dropWhile_eq_self_of_head isPyWS l.reverse ?_, List.reverse_reverse]
  intro c t hct
  apply hl
  rw [← List.head?_reverse, hct]
  rfl

/-- Stripping is idempotent. -/
theorem stripChars_idem (l : List Char) : stripChars (stripChars l) = stripChars l :=
  stripChars_eq_self (stripChars l)
    (fun c t h => stripChars_head_not_ws l c t h)
    (fun c h => stripChars_last_not_ws l c h)

/-- The split-and-strip stage always returns a stripped string. -/
theorem cleanupSET_strip (s : String) : ∃ x, cleanupSET s = String.mk (stripChars x) := by
  unfold cleanupSET
  cases hse : seScan s.data with
  | none => exact ⟨s.data, rfl⟩
  | some r =>
    rcases r with ⟨g1, se, ep, g4⟩
    exact ⟨if g1.isEmpty then g4 else g1, rfl⟩

/-- A non-empty title that matches neither pattern and is strip-invariant is a
fixed point of the cleanup step. -/
theorem cleanupTitleOnly_fix (out : String) (ho : ¬ out = "") (hse : seScan out.data = none)
    (h1 : stripChars out.data = out.data) (h2 : yearScan out.data = none) :
    cleanupTitleOnly out = out := by
  unfold cleanupTitleOnly
  rw [if_neg ho]
  have hset : cleanupSET out = out := by
    unfold cleanupSET
    rw [hse]
    dsimp only
    rw [h1]
  rw [hset, h2]

/-- String-level idempotence: the cleanup step applied to its own title
output returns it unchanged whenever that output no longer matches the
season/episode split pattern.  (When the output still matches the split
pattern, possible when an empty group 1 makes the split fall back to the
suffix after the episode digits, a second application splits again and
changes the title.) -/
theorem c6_cleanup_idem_strings (s : String) (h : seScan (cleanupTitleOnly s).data = none) :
    cleanupTitleOnly (cleanupTitleOnly s) = cleanupTitleOnly s := by
  by_cases hs : s = ""
  · subst hs; rfl
  · by_cases ho : cleanupTitleOnly s = ""
    · rw [ho]; rfl
    · obtain ⟨x, hx⟩ := cleanupSET_strip s
      have hout2 : cleanupTitleOnly s = (match yearScan (cleanupSET s).data with
          | some (p, _) => String.mk p
          | none => cleanupSET s) := by
        unfold cleanupTitleOnly
        rw [if_neg hs]
      cases hy : yearScan (cleanupSET s).data with
      | none =>
        rw [hy] at hout2
        dsimp only at hout2
        refine cleanupTitleOnly_fix _ ho h ?_ ?_
        · rw [hout2, hx]
          exact stripChars_idem x
        · rw [hout2]
          exact hy
      | some pr =>
        rcases pr with ⟨p, y⟩
        rw [hy] at hout2
        dsimp only at hout2
        obtain ⟨⟨q, hq, hsep⟩, hnone, hlast⟩ := yearScan_struct (cleanupSET s).data p y hy
        have hpne : p ≠ [] := by
          intro hp
          apply ho
          rw [hout2, hp]
        have h1 : stripChars p = p := by
          apply stripChars_eq_self
          · intro c t hct
            apply stripChars_head_not_ws x c (t ++ q)
            have hxq : stripChars x = p ++ q := by
              have h3 := hq
              rw [hx] at h3
              exact h3
            rw [hxq, hct, List.cons_append]
          · intro c hc
            rcases hlast with hp0 | ⟨c2, hg, hl⟩
            · exact absurd hp0 hpne
            · rw [hg] at hc
              injection hc with hc
              rw [← hc]
              exact letter_not_ws c2 hl
        refine cleanupTitleOnly_fix _ ho h ?_ ?_
        · rw [hout2]
          exact h1
        · rw [hout2]
          exact hnone

/-- C6 (amended): title normalization is idempotent for every record whose
normalized title no longer matches the season/episode split pattern —
`cleanup_title` applied to its own output leaves the title unchanged.  The
restriction is forced by the suffix-fallback of the split (see the
counterexample). -/
theorem c6_cleanup_title_idem (i : Info)
    (h : seScan (cleanup_title i).title.data = none) :
    (cleanup_title (cleanup_title i)).title = (cleanup_title i).title := by
  rw [cleanup_title_title (cleanup_title i), cleanup_title_title i]
  apply c6_cleanup_idem_strings
  rw [← cleanup_title_title]
  exact h

/-- Record fixture for the C6 witness. -/
def iC6w : Info := { blankInfo with title := "Some Show S01E02" }

/-- Witness for `c6_cleanup_title_idem` at a concrete title. -/
theorem c6_cleanup_title_idem_witness :
    (cleanup_title (cleanup_title iC6w)).title = (cleanup_title iC6w).title :=
  c6_cleanup_title_idem iC6w (by decide)

/-- Record fixture for the C6 counterexample. -/
def iC6 : Info := { blankInfo with title := "S1E2S3E4" }

/-- C6 counterexample: normalization is not idempotent as claimed.  The title
`S1E2S3E4` splits with an empty group 1, so the suffix `S3E4` becomes the
first output; a second application splits that again and returns the empty
string. -/
theorem c6_idempotence_counterexample :
    (cleanup_title iC6).title = "S3E4" ∧ (cleanup_title (cleanup_title iC6)).title = "" ∧
      (cleanup_title (cleanup_title iC6)).title ≠ (cleanup_title iC6).title := by
  exact ⟨by decide, by decide, by decide⟩
